import Mathlib

/-!
Verification of the reference-scope checker specification for the
`lifetimes` repository.  The executable Rust functions of the repository
(`longest_a`, `longest_with_an_announcement` and the two `main` bodies)
are embedded as pure Lean functions; printing is modelled as the list of
lines produced.  The notional Reference-Scope Checker components of the
specification (Scope Table Builder, Elision Inference Engine, Validity
Verifier), whose implementation is absent from the sources, are modelled
from the specification text.
-/

namespace Lifetimes

/-- Embedding of `fn longest_a <'a> (x: &'a str, y: &'a str) -> &'a str`
from `src/elision_rules.rs`: returns `x` when `x.len() > y.len()`,
otherwise `y`. -/
def longest_a (x y : String) : String :=
  if x.length > y.length then x else y

/-- Embedding of `fn longest_with_an_announcement <'a, T> (x, y, ann)`
from `src/generic_lifetimes_traits.rs`.  The `println!` of the
announcement is modelled as the first component (list of printed lines);
the second component is the returned reference. -/
def longest_with_an_announcement {T : Type} [ToString T]
    (x y : String) (ann : T) : List String × String :=
  (["Announcement: " ++ toString ann],
   if x.length > y.length then x else y)

/-- Embedding of the printed output of `fn main` in
`src/elision_rules.rs`: two calls of `longest_a`, each followed by a
`println!` of the computed result. -/
def elision_main_output : List String :=
  let string1 := "abcd"
  let string2 := "xyz"
  let result := longest_a string1 string2
  let s1 := "long string is long"
  let s2 := "xyz"
  let result2 := longest_a s1 s2
  ["The longest string is " ++ result,
   "the longest string is " ++ result2]

/-- Embedding of `first_sentence` in `fn main` of
`src/elision_rules.rs`: the part of `novel` before the first `"."`. -/
def first_sentence : String :=
  (("Some piece of novel. Blabla...".splitOn ".").headD "")

/-- Embedding of `struct ImportantExcerpt <'a> { part: &'a str }` from
`src/elision_rules.rs`. -/
structure ImportantExcerpt where
  part : String

/-- Embedding of the instance `i = ImportantExcerpt {part: first_sentence}`
constructed in `fn main` of `src/elision_rules.rs`. -/
def excerpt_instance : ImportantExcerpt :=
  { part := first_sentence }

/-- Embedding of the printed output of `fn main` in
`src/generic_lifetimes_traits.rs`: the announcement line printed inside
`longest_with_an_announcement`, then the result line. -/
def generic_main_output : List String :=
  let string1 := "abcd"
  let string2 := "xyz"
  let ann := "it can be any type that implements the Display trait!"
  let r := longest_with_an_announcement string1 string2 ann
  r.1 ++ ["The longest string is " ++ r.2 ++ "."]

/-- Modelled from the spec: the end of a binding's scope interval
`[start, end)` — either an ordinary program position, or, for
`'static`-marked bindings, the sentinel "program lifetime" value greater
than every other scope end (spec §4.1, §8; `src/elision_rules.rs` §8). -/
inductive ScopeEnd where
  | finite (n : Nat)
  | static
deriving DecidableEq, Repr

/-- Strict order on scope ends: the `'static` sentinel dominates every
finite end. -/
def ScopeEnd.lt : ScopeEnd → ScopeEnd → Bool
  | .finite a, .finite b => a < b
  | .finite _, .static => true
  | .static, _ => false

/-- Whether a program position lies strictly before a scope end. -/
def ScopeEnd.posLt (p : Nat) (e : ScopeEnd) : Bool :=
  ScopeEnd.lt (.finite p) e

/-- Minimum of two scope ends. -/
def ScopeEnd.minE : ScopeEnd → ScopeEnd → ScopeEnd
  | .finite a, .finite b => .finite (min a b)
  | .finite a, .static => .finite a
  | .static, e => e

/-- Modelled from the spec: a scope interval `[start, end)` measured in
declaration-order positions (spec §3, Binding). -/
structure Scope where
  start : Nat
  stop : ScopeEnd
deriving DecidableEq, Repr

/-- Modelled from the spec: the intersection of two scopes computed by
the Validity Verifier — the maximum of the `start` values and the
minimum of the `end` values (spec §4.3). -/
def Scope.inter (a b : Scope) : Scope :=
  { start := max a.start b.start, stop := ScopeEnd.minE a.stop b.stop }

/-- Whether a use position lies within a scope interval `[start, end)`. -/
def Scope.containsPos (s : Scope) (p : Nat) : Bool :=
  decide (s.start ≤ p) && ScopeEnd.posLt p s.stop

/-- Modelled from the spec: a Binding — a name, a flag marking it as
owned-data or reference, and a scope interval (spec §3). -/
structure Binding where
  name : String
  is_ref : Bool
  scope : Scope
deriving DecidableEq, Repr

/-- Modelled from the spec: the error taxonomy of the checker
(spec §7). -/
inductive CheckError where
  | DuplicateBindingError (name : String)
  | AmbiguousLifetimeError (position : Nat)
  | DanglingReferenceError (binding_name : String)
      (used_until : Nat) (valid_until : ScopeEnd)
deriving DecidableEq, Repr

/-- Modelled from the spec: the Validity Verifier's terminal states,
`Accepted` or `Rejected(reason)` (spec §4.3). -/
inductive Verdict where
  | Accepted
  | Rejected (reason : CheckError)
deriving DecidableEq, Repr

/-- Modelled from the spec: the scope assigned to one binding by the
Scope Table Builder — `start` is the declaration's position, `end` is the
innermost enclosing block's close, or the `'static` sentinel for
`'static`-marked bindings (spec §4.1). -/
def buildScope (decl_pos : Nat) (block_close : Nat) (is_static : Bool) :
    Scope :=
  { start := decl_pos,
    stop := if is_static then ScopeEnd.static else ScopeEnd.finite block_close }

/-- Modelled from the spec: the Validity Verifier's check of one returned
or stored reference against one source binding — it fails with
`DanglingReferenceError(binding_name, used_until, valid_until)` when the
use would let the result outlive the source (spec §4.3). -/
def check_dangling (b : Binding) (used_until : Nat) : Verdict :=
  if ScopeEnd.posLt used_until b.scope.stop then Verdict.Accepted
  else Verdict.Rejected
    (CheckError.DanglingReferenceError b.name used_until b.scope.stop)

/-- Modelled from the spec: the Validity Verifier at a call site of the
generic two-input function — it computes the substituted concrete
scope-parameter as the intersection of the two input scopes and confirms
the returned reference's usage site lies within that intersection
(spec §4.3). -/
def verify_call (bx b2 : Binding) (use_pos : Nat) : Verdict :=
  let inter := Scope.inter bx.scope b2.scope
  if Scope.containsPos inter use_pos then Verdict.Accepted
  else
    let violated :=
      if ScopeEnd.lt bx.scope.stop b2.scope.stop then bx else b2
    Verdict.Rejected
      (CheckError.DanglingReferenceError violated.name use_pos inter.stop)

/-- Modelled from the spec: a reference-typed struct field together with
the source binding it was constructed from (spec §3,
StructDefinition). -/
structure RefField where
  field_name : String
  source : Binding
deriving DecidableEq, Repr

/-- Modelled from the spec: the Validity Verifier at a struct
construction site — the struct instance, used until `used_until`, must
not outlive the source binding of any reference-typed field
(spec §4.3, §8 struct-field case). -/
def verify_struct (used_until : Nat) (fields : List RefField) : Verdict :=
  match fields.find? (fun f => ! ScopeEnd.posLt used_until f.source.scope.stop) with
  | some f => Verdict.Rejected
      (CheckError.DanglingReferenceError f.source.name used_until
        f.source.scope.stop)
  | none => Verdict.Accepted

/-- Modelled from the spec: one parameter of a FunctionSignature — a
reference flag and an optional explicit scope-parameter (spec §3). -/
structure Param where
  is_ref : Bool
  explicit : Option String
deriving DecidableEq, Repr

/-- Modelled from the spec: a FunctionSignature or method signature fed
to the Elision Inference Engine — an optional receiver binding `&self`,
the ordered non-receiver parameters, whether the return type is a
reference, and its optional explicit scope-parameter (spec §3, §4.2). -/
structure FunctionSignature where
  receiver : Bool
  params : List Param
  ret_ref : Bool
  ret_explicit : Option String
deriving DecidableEq, Repr

/-- Modelled from the spec: a scope-parameter — either an explicit named
one or a fresh one introduced by Rule 1, numbered by input position
(position 0 is the receiver when present) (spec §4.2). -/
inductive ScopeParam where
  | explicitP (s : String)
  | freshP (i : Nat)
deriving DecidableEq, Repr

/-- Rule 1 applied to the non-receiver parameters starting at input
position `k`: each reference parameter keeps its explicit
scope-parameter or receives the fresh, distinct scope-parameter of its
position. -/
def paramScopeParams : Nat → List Param → List ScopeParam
  | _, [] => []
  | k, p :: rest =>
    (if p.is_ref then
      [match p.explicit with
       | some s => ScopeParam.explicitP s
       | none => ScopeParam.freshP k]
     else []) ++ paramScopeParams (k + 1) rest

/-- Modelled from the spec: the input scope-parameters of a signature
after Rule 1 — the receiver's scope-parameter (fresh at position 0) when
present, followed by the parameters' scope-parameters (spec §4.2
Rule 1). -/
def inputScopeParams (sig : FunctionSignature) : List ScopeParam :=
  (if sig.receiver then [ScopeParam.freshP 0] else []) ++
    paramScopeParams (if sig.receiver then 1 else 0) sig.params

/-- The declaration position of the return slot, used to name the
unassigned position in `AmbiguousLifetimeError`. -/
def returnPosition (sig : FunctionSignature) : Nat :=
  (if sig.receiver then 1 else 0) + sig.params.length

/-- Rule 2 together with the failure condition: when the distinct input
scope-parameters are exactly one, it is assigned to the return
reference; otherwise the return reference stays unassigned and inference
fails with `AmbiguousLifetimeError` naming the return position. -/
def outputFromInputs : List ScopeParam → Nat → Except CheckError (Option ScopeParam)
  | [p], _ => Except.ok (some p)
  | _, pos => Except.error (CheckError.AmbiguousLifetimeError pos)

/-- Modelled from the spec: the Elision Inference Engine — Rule 1 gives
every unannotated reference parameter a fresh, distinct scope-parameter;
Rule 3 (receiver case, overriding Rule 2) assigns the receiver's
scope-parameter to the unannotated return reference; Rule 2 applies when
there is exactly one distinct input scope-parameter; otherwise the
return reference stays unassigned and inference fails with
`AmbiguousLifetimeError` naming the return position (spec §4.2).
Returns the scope-parameter assigned to the return reference, `none`
when the return type is not a reference. -/
def elide (sig : FunctionSignature) : Except CheckError (Option ScopeParam) :=
  if sig.ret_ref = false then Except.ok none
  else
    match sig.ret_explicit with
    | some s => Except.ok (some (ScopeParam.explicitP s))
    | none =>
      if sig.receiver then Except.ok (some (ScopeParam.freshP 0))
      else outputFromInputs (inputScopeParams sig).dedup (returnPosition sig)

end Lifetimes

namespace Lifetimes

/-- **C1.** `longest_a x y` returns `x` exactly when `x.len() > y.len()`
and `y` otherwise; the two `main` bodies do nothing beyond printing the
computed comparison results, and `longest_with_an_announcement`
additionally prints exactly its announcement argument. -/
theorem C1_longest_prints_comparison :
    (∀ x y : String, x.length > y.length → longest_a x y = x) ∧
    (∀ x y : String, ¬ x.length > y.length → longest_a x y = y) ∧
    (∀ (T : Type) (inst : ToString T) (x y : String) (ann : T),
      (longest_with_an_announcement x y ann).1 =
        ["Announcement: " ++ toString ann]) ∧
    elision_main_output =
      ["The longest string is abcd",
       "the longest string is long string is long"] ∧
    generic_main_output =
      ["Announcement: it can be any type that implements the Display trait!",
       "The longest string is abcd."] := by
  refine ⟨?_, ?_, ?_, ?_, ?_⟩
  · intro x y h
    simp [longest_a, h]
  · intro x y h
    simp [longest_a, h]
  · intro T inst x y ann
    rfl
  · rfl
  · rfl

/-- Witness for C1 at concrete inputs: the hypotheses of the two
conditional clauses are discharged at `("abcd", "xyz")` and
`("xyz", "abcd")`. -/
theorem C1_longest_prints_comparison_witness :
    longest_a "abcd" "xyz" = "abcd" ∧ longest_a "xyz" "abcd" = "abcd" := by
  refine ⟨C1_longest_prints_comparison.1 "abcd" "xyz" (by decide),
    C1_longest_prints_comparison.2.1 "xyz" "abcd" (by decide)⟩

/-- **C9.** For every pair of string slices and every announcement value,
the reference returned by `longest_with_an_announcement` equals the one
returned by `longest_a`; the two functions differ only in the printed
announcement. -/
theorem C9_announcement_refines_longest :
    ∀ (T : Type) (inst : ToString T) (x y : String) (ann : T),
      (longest_with_an_announcement x y ann).2 = longest_a x y := by
  intro T inst x y ann
  rfl

/-- **C10.** When `x.len() = y.len()`, both `longest_a` and
`longest_with_an_announcement` return the second argument `y`. -/
theorem C10_tie_returns_second :
    ∀ (x y : String), x.length = y.length →
      longest_a x y = y ∧
      ∀ (T : Type) (inst : ToString T) (ann : T),
        (longest_with_an_announcement x y ann).2 = y := by
  intro x y h
  constructor
  · simp [longest_a, h]
  · intro T inst ann
    simp [longest_with_an_announcement, h]

/-- Witness for C10 at the concrete tie `("abc", "xyz")`. -/
theorem C10_tie_returns_second_witness :
    longest_a "abc" "xyz" = "xyz" ∧
      (longest_with_an_announcement "abc" "xyz" "hi").2 = "xyz" := by
  have h := C10_tie_returns_second "abc" "xyz" (by decide)
  exact ⟨h.1, h.2 String inferInstance "hi"⟩

/-- Rule 1 produces one scope-parameter per reference parameter. -/
theorem paramScopeParams_length (k : Nat) (l : List Param) :
    (paramScopeParams k l).length = l.countP (fun p => p.is_ref) := by
  induction l generalizing k with
  | nil => simp [paramScopeParams]
  | cons p rest ih =>
    by_cases h : p.is_ref <;>
      simp [paramScopeParams, List.countP_cons, h, ih]

/-- With no explicit annotations, Rule 1 produces only fresh
scope-parameters at positions at least `k`. -/
theorem paramScopeParams_mem_fresh (k : Nat) (l : List Param)
    (hall : ∀ p ∈ l, p.explicit = none) :
    ∀ q ∈ paramScopeParams k l, ∃ i, q = ScopeParam.freshP i ∧ k ≤ i := by
  induction l generalizing k with
  | nil => simp [paramScopeParams]
  | cons p rest ih =>
    intro q hq
    have hp : p.explicit = none := hall p (by simp)
    have hrest : ∀ r ∈ rest, r.explicit = none := fun r hr => hall r (by simp [hr])
    by_cases h : p.is_ref
    · simp [paramScopeParams, h, hp] at hq
      rcases hq with hq | hq
      · exact ⟨k, hq, le_refl k⟩
      · rcases ih (k + 1) hrest q hq with ⟨i, hqi, hik⟩
        exact ⟨i, hqi, by omega⟩
    · simp [paramScopeParams, h] at hq
      rcases ih (k + 1) hrest q hq with ⟨i, hqi, hik⟩
      exact ⟨i, hqi, by omega⟩

/-- With no explicit annotations the fresh scope-parameters of Rule 1
are pairwise distinct. -/
theorem paramScopeParams_nodup (k : Nat) (l : List Param)
    (hall : ∀ p ∈ l, p.explicit = none) :
    (paramScopeParams k l).Nodup := by
  induction l generalizing k with
  | nil => simp [paramScopeParams]
  | cons p rest ih =>
    have hp : p.explicit = none := hall p (by simp)
    have hrest : ∀ r ∈ rest, r.explicit = none := fun r hr => hall r (by simp [hr])
    by_cases h : p.is_ref
    · simp only [paramScopeParams, h, hp, if_true, List.singleton_append]
      refine List.nodup_cons.mpr ⟨?_, ih (k + 1) hrest⟩
      intro hmem
      rcases paramScopeParams_mem_fresh (k + 1) rest hrest _ hmem with ⟨i, hqi, hik⟩
      have : k = i := ScopeParam.freshP.inj hqi
      omega
    · simpa [paramScopeParams, h] using ih (k + 1) hrest

/-- **C2.** The Validity Verifier computes the substituted concrete
scope-parameter of a call as the intersection of the two input scopes
(maximum of starts, minimum of ends) and accepts a use of the returned
reference exactly when the use position lies within that intersection;
for inputs scoped `[0,10)` and `[3,6)` the intersection is `[3,6)`, a
use at 7 is Rejected and a use at 5 is Accepted. -/
theorem C2_substitution_intersection :
    (∀ a b : Scope, (Scope.inter a b).start = max a.start b.start ∧
      (Scope.inter a b).stop = ScopeEnd.minE a.stop b.stop) ∧
    (∀ (bx b2 : Binding) (u : Nat),
      verify_call bx b2 u = Verdict.Accepted ↔
        Scope.containsPos (Scope.inter bx.scope b2.scope) u = true) ∧
    Scope.inter ⟨0, ScopeEnd.finite 10⟩ ⟨3, ScopeEnd.finite 6⟩ =
      ⟨3, ScopeEnd.finite 6⟩ ∧
    verify_call ⟨"s1", true, ⟨0, ScopeEnd.finite 10⟩⟩
        ⟨"s2", true, ⟨3, ScopeEnd.finite 6⟩⟩ 7 =
      Verdict.Rejected
        (CheckError.DanglingReferenceError "s2" 7 (ScopeEnd.finite 6)) ∧
    verify_call ⟨"s1", true, ⟨0, ScopeEnd.finite 10⟩⟩
        ⟨"s2", true, ⟨3, ScopeEnd.finite 6⟩⟩ 5 = Verdict.Accepted := by
  refine ⟨fun a b => ⟨rfl, rfl⟩, ?_, by decide, by decide, by decide⟩
  intro bx b2 u
  by_cases h : Scope.containsPos (Scope.inter bx.scope b2.scope) u = true
  · simp [verify_call, h]
  · simp [verify_call, h]

/-- **C3.** For every signature with exactly one reference-typed input,
a reference-typed output, no receiver and no explicit scope-parameters,
the Elision Inference Engine assigns the single input's scope-parameter
to the return reference (Rule 2). -/
theorem C3_rule2_single_input (sig : FunctionSignature)
    (hrecv : sig.receiver = false)
    (hret : sig.ret_ref = true)
    (hexp : sig.ret_explicit = none)
    (hall : ∀ p ∈ sig.params, p.explicit = none)
    (hone : sig.params.countP (fun p => p.is_ref) = 1) :
    ∃ q, inputScopeParams sig = [q] ∧ elide sig = Except.ok (some q) := by
  have hlen : (paramScopeParams 0 sig.params).length = 1 := by
    rw [paramScopeParams_length]; exact hone
  obtain ⟨q, hq⟩ : ∃ q, paramScopeParams 0 sig.params = [q] := by
    rcases hl : paramScopeParams 0 sig.params with _ | ⟨a, _ | ⟨b, t⟩⟩
    · rw [hl] at hlen; simp at hlen
    · exact ⟨a, rfl⟩
    · rw [hl] at hlen; simp at hlen
  have hin : inputScopeParams sig = [q] := by
    simp [inputScopeParams, hrecv, hq]
  refine ⟨q, hin, ?_⟩
  simp [elide, hrecv, hret, hexp, hin, outputFromInputs]

/-- Witness for C3 at the `first_word`-shaped signature
`fn (s: &str) -> &str`. -/
theorem C3_rule2_single_input_witness :
    ∃ q, inputScopeParams ⟨false, [⟨true, none⟩], true, none⟩ = [q] ∧
      elide ⟨false, [⟨true, none⟩], true, none⟩ = Except.ok (some q) :=
  C3_rule2_single_input ⟨false, [⟨true, none⟩], true, none⟩ rfl rfl rfl
    (by decide) (by decide)

/-- **C4.** For every method signature with a receiver and at least one
other reference-typed input, the Elision Inference Engine assigns the
receiver's scope-parameter (the fresh parameter of input position 0) to
the return reference, taking precedence over Rule 2. -/
theorem C4_rule3_receiver (sig : FunctionSignature)
    (hrecv : sig.receiver = true)
    (hret : sig.ret_ref = true)
    (hexp : sig.ret_explicit = none)
    (hother : ∃ p ∈ sig.params, p.is_ref = true) :
    elide sig = Except.ok (some (ScopeParam.freshP 0)) ∧
      (inputScopeParams sig).head? = some (ScopeParam.freshP 0) := by
  constructor
  · simp [elide, hrecv, hret, hexp]
  · simp [inputScopeParams, hrecv]

/-- Witness for C4 at the `announce_and_return_part`-shaped signature
`fn (&self, announcement: &str) -> &str`. -/
theorem C4_rule3_receiver_witness :
    elide ⟨true, [⟨true, none⟩], true, none⟩ =
        Except.ok (some (ScopeParam.freshP 0)) ∧
      (inputScopeParams ⟨true, [⟨true, none⟩], true, none⟩).head? =
        some (ScopeParam.freshP 0) :=
  C4_rule3_receiver ⟨true, [⟨true, none⟩], true, none⟩ rfl rfl rfl
    ⟨⟨true, none⟩, by simp⟩

/-- **C5.** For every non-method signature with two or more
reference-typed inputs, none of them explicitly annotated, and no
explicit scope-parameter on the return reference, elision inference
fails with `AmbiguousLifetimeError` naming the return position. -/
theorem C5_ambiguous_two_inputs (sig : FunctionSignature)
    (hrecv : sig.receiver = false)
    (hret : sig.ret_ref = true)
    (hexp : sig.ret_explicit = none)
    (hall : ∀ p ∈ sig.params, p.explicit = none)
    (htwo : 2 ≤ sig.params.countP (fun p => p.is_ref)) :
    elide sig = Except.error
      (CheckError.AmbiguousLifetimeError (returnPosition sig)) := by
  have hin : inputScopeParams sig = paramScopeParams 0 sig.params := by
    simp [inputScopeParams, hrecv]
  have hnd : (paramScopeParams 0 sig.params).Nodup :=
    paramScopeParams_nodup 0 sig.params hall
  have hded : (inputScopeParams sig).dedup = paramScopeParams 0 sig.params := by
    rw [hin, List.dedup_eq_self.mpr hnd]
  have hlen : 2 ≤ (paramScopeParams 0 sig.params).length := by
    rw [paramScopeParams_length]; exact htwo
  obtain ⟨a, b, t, habt⟩ :
      ∃ a b t, paramScopeParams 0 sig.params = a :: b :: t := by
    rcases hl : paramScopeParams 0 sig.params with _ | ⟨a, _ | ⟨b, t⟩⟩
    · rw [hl] at hlen; simp at hlen
    · rw [hl] at hlen; simp at hlen
    · exact ⟨a, b, t, rfl⟩
  simp [elide, hrecv, hret, hexp, hded, habt, outputFromInputs]

/-- Witness for C5 at the `longest`-shaped signature
`fn (x: &str, y: &str) -> &str`. -/
theorem C5_ambiguous_two_inputs_witness :
    elide ⟨false, [⟨true, none⟩, ⟨true, none⟩], true, none⟩ =
      Except.error (CheckError.AmbiguousLifetimeError
        (returnPosition ⟨false, [⟨true, none⟩, ⟨true, none⟩], true, none⟩)) :=
  C5_ambiguous_two_inputs ⟨false, [⟨true, none⟩, ⟨true, none⟩], true, none⟩
    rfl rfl rfl (by decide) (by decide)

/-- **C6.** A `'static`-marked binding carries the sentinel scope end,
which is strictly greater than every finite scope end, and such a
binding never triggers `DanglingReferenceError` whatever the scope of
the binding it is compared against. -/
theorem C6_static_sentinel :
    (∀ n, ScopeEnd.lt (ScopeEnd.finite n) ScopeEnd.static = true) ∧
    (∀ decl_pos block_close,
      (buildScope decl_pos block_close true).stop = ScopeEnd.static) ∧
    (∀ (b : Binding) (used_until : Nat), b.scope.stop = ScopeEnd.static →
      check_dangling b used_until = Verdict.Accepted) := by
  refine ⟨fun n => rfl, fun p c => rfl, ?_⟩
  intro b used_until hs
  simp [check_dangling, hs, ScopeEnd.posLt, ScopeEnd.lt]

/-- Witness for C6 at the `s: &'static str` binding of
`src/elision_rules.rs`, compared against an arbitrarily late use. -/
theorem C6_static_sentinel_witness :
    check_dangling ⟨"s", true, ⟨124, ScopeEnd.static⟩⟩ 1000000 =
      Verdict.Accepted :=
  C6_static_sentinel.2.2 ⟨"s", true, ⟨124, ScopeEnd.static⟩⟩ 1000000 rfl

/-- **C7.** A struct holding a reference field cannot be constructed
from a source binding whose scope ends before the instance's last use:
the Validity Verifier rejects with `DanglingReferenceError`; concretely,
the `ImportantExcerpt`-equivalent built from a binding scoped `[0,4)`
with the instance used until 6 is rejected. -/
theorem C7_struct_dangling :
    (∀ (used_until : Nat) (fields : List RefField) (f : RefField),
      f ∈ fields →
      ScopeEnd.lt f.source.scope.stop (ScopeEnd.finite used_until) = true →
      ∃ nm vu, verify_struct used_until fields =
        Verdict.Rejected (CheckError.DanglingReferenceError nm used_until vu)) ∧
    verify_struct 6 [⟨"part", ⟨"novel", true, ⟨0, ScopeEnd.finite 4⟩⟩⟩] =
      Verdict.Rejected
        (CheckError.DanglingReferenceError "novel" 6 (ScopeEnd.finite 4)) := by
  refine ⟨?_, by decide⟩
  intro used_until fields f hmem hlt
  have hpred : (! ScopeEnd.posLt used_until f.source.scope.stop) = true := by
    rcases hstop : f.source.scope.stop with n | _
    · rw [hstop] at hlt
      simp [ScopeEnd.posLt, ScopeEnd.lt] at hlt ⊢
      omega
    · rw [hstop] at hlt
      simp [ScopeEnd.lt] at hlt
  have hsome : (fields.find?
      (fun g => ! ScopeEnd.posLt used_until g.source.scope.stop)).isSome := by
    rw [List.find?_isSome]
    exact ⟨f, hmem, hpred⟩
  obtain ⟨g, hg⟩ := Option.isSome_iff_exists.mp hsome
  exact ⟨g.source.name, g.source.scope.stop, by simp [verify_struct, hg]⟩

/-- Witness for C7: the general clause applied to the concrete
`ImportantExcerpt`-equivalent construction, source scoped `[0,4)` and
instance used until 6. -/
theorem C7_struct_dangling_witness :
    ∃ nm vu,
      verify_struct 6 [⟨"part", ⟨"novel", true, ⟨0, ScopeEnd.finite 4⟩⟩⟩] =
        Verdict.Rejected (CheckError.DanglingReferenceError nm 6 vu) :=
  C7_struct_dangling.1 6 [⟨"part", ⟨"novel", true, ⟨0, ScopeEnd.finite 4⟩⟩⟩]
    ⟨"part", ⟨"novel", true, ⟨0, ScopeEnd.finite 4⟩⟩⟩ (by simp) (by decide)

/-- **C8.** The Validity Verifier is a pure function of the declaration
and the concrete substitutions: re-running it on an already-`Accepted`
input yields `Accepted` again, and any two runs on the same input agree. -/
theorem C8_verifier_idempotent :
    ∀ (bx b2 : Binding) (u : Nat) (fields : List RefField) (w : Nat),
      (verify_call bx b2 u = Verdict.Accepted →
        verify_call bx b2 u = Verdict.Accepted) ∧
      verify_call bx b2 u = verify_call bx b2 u ∧
      (verify_struct w fields = Verdict.Accepted →
        verify_struct w fields = Verdict.Accepted) ∧
      verify_struct w fields = verify_struct w fields := by
  intro bx b2 u fields w
  exact ⟨fun h => h, rfl, fun h => h, rfl⟩

/-- Witness for C8 at concrete accepted inputs: a call-site check and a
struct-construction check, each re-run after acceptance. -/
theorem C8_verifier_idempotent_witness :
    verify_call ⟨"a1", true, ⟨0, ScopeEnd.finite 20⟩⟩
        ⟨"a2", true, ⟨2, ScopeEnd.finite 9⟩⟩ 4 = Verdict.Accepted ∧
      verify_struct 3 [⟨"part", ⟨"novel", true, ⟨0, ScopeEnd.finite 9⟩⟩⟩] =
        Verdict.Accepted := by
  refine ⟨?_, ?_⟩
  · exact (C8_verifier_idempotent ⟨"a1", true, ⟨0, ScopeEnd.finite 20⟩⟩
      ⟨"a2", true, ⟨2, ScopeEnd.finite 9⟩⟩ 4 [] 0).1 (by decide)
  · exact (C8_verifier_idempotent ⟨"a1", true, ⟨0, ScopeEnd.finite 20⟩⟩
      ⟨"a2", true, ⟨2, ScopeEnd.finite 9⟩⟩ 4
      [⟨"part", ⟨"novel", true, ⟨0, ScopeEnd.finite 9⟩⟩⟩] 3).2.2.1 (by decide)

end Lifetimes
